import Mathlib

/-!
Verification development for the odata-builder repository's filter core:
the filter expression model (`src/query-builder/types/filter/query-filter.type.ts`),
the type classifier and operator table (`filter-helper.util.ts`),
the serialization visitor (`src/query-builder/utils/filter/filter-visitor.ts`)
and the precedence-aware `FilterBuilder`
(`src/query-builder/builder/filter-builder/filter-builder.ts`).

Conventions of the embedding:
* JavaScript strings are Lean `String`s; `replace(/'/g, "''")`,
  `includes(' ')` and `join(sep)` are embedded character-list-wise
  (`escapeQuotes`, `strIncludes`, `joinSep`).
* JavaScript numbers appearing as filter values are embedded as `Int`
  (their `String(value)` rendering is `Int` printing); `Date` objects are
  embedded as their epoch-millisecond timestamp, with `toISOString` and the
  `getUTC*` accessors implemented over it.
* Code that `throw`s is embedded in `Except String`.
* Union object types become inductive types; structural type guards
  (`isBasicFilter`, `isInFilter`, ...) become constructor dispatch, which
  agrees with the guards on every value of the typed model.
-/

/-- The single-quote character, written by code point to keep source plain. -/
def quoteChar : Char := Char.ofNat 39

/-- Embedding of `value.replace(/'/g, "''")` on the character list. -/
def escList (l : List Char) : List Char :=
  l.flatMap fun c => if c = quoteChar then [quoteChar, quoteChar] else [c]

/-- OData single-quote escaping: every `'` becomes `''`. -/
def escapeQuotes (s : String) : String := String.mk (escList s.data)

/-- Embedding of JavaScript `s.includes(c)` for a one-character needle. -/
def strIncludes (s : String) (c : Char) : Bool := s.data.contains c

/-- Embedding of JavaScript `Array.prototype.join(sep)` on strings. -/
def joinSep (sep : String) : List String → String
  | [] => ""
  | [x] => x
  | x :: y :: rest => x ++ sep ++ joinSep sep (y :: rest)

/-- Embedding of `String.prototype.toLowerCase` (ASCII case folding). -/
def jsToLowerCase (s : String) : String := s.map Char.toLower

/-- Character test for the GUID pattern's hexadecimal digits (`[0-9a-f]` with `/i`). -/
def isHexChar (c : Char) : Bool :=
  c.isDigit || (('a' ≤ c) && (c ≤ 'f')) || (('A' ≤ c) && (c ≤ 'F'))

/-- Embedding of `isGuid` from `filter-helper.util.ts`: the canonical
8-4-4-4-12 hexadecimal pattern, case-insensitive, no braces
(`/^[0-9a-f]\x7b8\x7d-[0-9a-f]\x7b4\x7d-[0-9a-f]\x7b4\x7d-[0-9a-f]\x7b4\x7d-[0-9a-f]\x7b12\x7d$/i`). -/
def isGuid (s : String) : Bool :=
  let cs := s.data
  cs.length = 36 &&
    (List.range 36).all fun i =>
      let c := cs.getD i ' '
      if i = 8 || i = 13 || i = 18 || i = 23 then c = '-' else isHexChar c

/-- Embedding of `operatorTypeMap` from `filter-helper.util.ts`. -/
def operatorTypeMap (type : String) : List String :=
  if type = "string" then
    ["eq", "ne", "contains", "startswith", "endswith", "substringof",
     "indexof", "concat"]
  else if type = "number" then ["eq", "ne", "lt", "le", "gt", "ge"]
  else if type = "boolean" then ["eq", "ne"]
  else if type = "Date" then ["eq", "ne", "lt", "le", "gt", "ge"]
  else if type = "Guid" then ["eq", "ne"]
  else if type = "null" then ["eq", "ne"]
  else []

/-- Embedding of `isValidOperator`: `operatorTypeMap[type] || []` then
`includes(operator)`; total, never throws. -/
def isValidOperator (type operator : String) : Bool :=
  (operatorTypeMap type).contains operator

/-- Comparison operators of the typed filter model
(`GeneralFilterOperators | NumberFilterOperators | DateFilterOperators`). -/
inductive CompOp
  | eq | ne | gt | ge | lt | le
deriving DecidableEq, Repr

/-- The operator token as it is spliced into the rendered query. -/
def CompOp.render : CompOp → String
  | .eq => "eq"
  | .ne => "ne"
  | .gt => "gt"
  | .ge => "ge"
  | .lt => "lt"
  | .le => "le"

/-- Filter literal values: `string | number | boolean | Date | Guid | null`
(GUIDs travel as strings and are recognised by pattern). -/
inductive FilterValue
  | null
  | str (s : String)
  | num (n : Int)
  | bool (b : Bool)
  | date (ms : Int)
deriving DecidableEq, Repr

/-- Embedding of `getValueType` from `filter-helper.util.ts`; on the typed
model the `unknown` fallback branch is unreachable. -/
def getValueType : FilterValue → String
  | .null => "null"
  | .date _ => "Date"
  | .str s => if isGuid s then "Guid" else "string"
  | .num _ => "number"
  | .bool _ => "boolean"

/-- Days since the epoch, JavaScript `Date` day split (floor division). -/
def daysFromMs (ms : Int) : Int := Int.fdiv ms 86400000

/-- Millisecond of day, non-negative (floor remainder). -/
def msOfDay (ms : Int) : Int := Int.fmod ms 86400000

/-- Proleptic-Gregorian civil date. -/
structure CivilDate where
  year : Int
  month : Int
  day : Int
deriving DecidableEq, Repr

/-- Civil date from days since 1970-01-01 (standard era/day-of-era split). -/
def civilFromDays (days : Int) : CivilDate :=
  let z := days + 719468
  let era := Int.fdiv z 146097
  let doe := z - era * 146097
  let yoe :=
    Int.ediv (doe - Int.ediv doe 1460 + Int.ediv doe 36524 - Int.ediv doe 146096) 365
  let y := yoe + era * 400
  let doy := doe - (365 * yoe + Int.ediv yoe 4 - Int.ediv yoe 100)
  let mp := Int.ediv (5 * doy + 2) 153
  let d := doy - Int.ediv (153 * mp + 2) 5 + 1
  let m := mp + (if mp < 10 then 3 else -9)
  { year := if m ≤ 2 then y + 1 else y, month := m, day := d }

/-- Embedding of `Date.prototype.getUTCFullYear` over epoch milliseconds. -/
def getUTCFullYear (ms : Int) : Int := (civilFromDays (daysFromMs ms)).year

/-- Embedding of `getUTCMonth` (0-based month, as in JavaScript). -/
def getUTCMonth (ms : Int) : Int := (civilFromDays (daysFromMs ms)).month - 1

/-- Embedding of `getUTCDate` (day of month). -/
def getUTCDate (ms : Int) : Int := (civilFromDays (daysFromMs ms)).day

/-- Embedding of `getUTCHours`. -/
def getUTCHours (ms : Int) : Int := Int.ediv (msOfDay ms) 3600000

/-- Embedding of `getUTCMinutes`. -/
def getUTCMinutes (ms : Int) : Int := Int.emod (Int.ediv (msOfDay ms) 60000) 60

/-- Embedding of `getUTCSeconds`. -/
def getUTCSeconds (ms : Int) : Int := Int.emod (Int.ediv (msOfDay ms) 1000) 60

/-- Millisecond component of the timestamp. -/
def getUTCMillis (ms : Int) : Int := Int.emod (msOfDay ms) 1000

/-- Left-pad a natural number's decimal digits with zeros to `w` places. -/
def padLeft (w : Nat) (n : Nat) : String :=
  let s := toString n
  String.mk (List.replicate (w - s.length) '0') ++ s

/-- Embedding of `Date.prototype.toISOString`: `YYYY-MM-DDTHH:mm:ss.sssZ`,
with the expanded `±YYYYYY` year form outside 0..9999 as in ECMAScript. -/
def toISOString (ms : Int) : String :=
  let c := civilFromDays (daysFromMs ms)
  let yearStr :=
    if c.year < 0 then "-" ++ padLeft 6 (Int.toNat (-c.year))
    else if c.year > 9999 then "+" ++ padLeft 6 (Int.toNat c.year)
    else padLeft 4 (Int.toNat c.year)
  yearStr ++ "-" ++ padLeft 2 (Int.toNat c.month) ++ "-" ++
    padLeft 2 (Int.toNat c.day) ++ "T" ++ padLeft 2 (Int.toNat (getUTCHours ms)) ++
    ":" ++ padLeft 2 (Int.toNat (getUTCMinutes ms)) ++ ":" ++
    padLeft 2 (Int.toNat (getUTCSeconds ms)) ++ "." ++
    padLeft 3 (Int.toNat (getUTCMillis ms)) ++ "Z"

/-- A function argument position that in the source may hold a literal or a
`FieldReference` object (`{ fieldReference: ... }`). -/
inductive FuncArg
  | val (v : FilterValue)
  | fieldRef (r : String)
deriving DecidableEq, Repr

/-- Embedding of the visitor's private `formatValue`: quoted/escaped strings,
ISO dates, `String(value)` for numbers and booleans; `null` and object
arguments (such as field references) hit the `typeof`-based throw. -/
def formatValue : FuncArg → Except String String
  | .val (.str s) => .ok ("\x27" ++ escapeQuotes s ++ "\x27")
  | .val (.date ms) => .ok (toISOString ms)
  | .val (.num n) => .ok (toString n)
  | .val (.bool b) => .ok (toString b)
  | .val .null => .error "Unsupported value type: object"
  | .fieldRef _ => .error "Unsupported value type: object"

/-- A `date`/`time` function's field argument: a plain string or a
`FieldReference` object. -/
inductive FieldRef
  | plain (s : String)
  | ref (fieldReference : String)
deriving DecidableEq, Repr

/-- Embedding of the visitor's private `resolveField`. Strings pass through.
The source then tests `'/' in field`, i.e. whether the object has a property
named `/`; a `FieldReference` object only has `fieldReference`, so object
arguments always reach the throw. -/
def resolveField : FieldRef → Except String String
  | .plain s => .ok s
  | .ref _ => .error "Unsupported FieldReference type"

/-- Embedding of `SupportedFunction` (string, arithmetic and date function
descriptors from `query-filter.type.ts`). -/
inductive SupportedFunction
  | concat (values : List FuncArg)
  | contains (value : FuncArg)
  | endswith (value : FuncArg)
  | indexof (value : FuncArg)
  | length
  | startswith (value : FuncArg)
  | substring (start : FuncArg) (len : Option FuncArg)
  | add (operand : FuncArg)
  | sub (operand : FuncArg)
  | mul (operand : FuncArg)
  | div (operand : FuncArg)
  | mod (operand : FuncArg)
  | now
  | date (field : FieldRef)
  | time (field : FieldRef)
deriving DecidableEq, Repr

/-- The descriptor's `type` discriminant string. -/
def SupportedFunction.typeName : SupportedFunction → String
  | .concat _ => "concat"
  | .contains _ => "contains"
  | .endswith _ => "endswith"
  | .indexof _ => "indexof"
  | .length => "length"
  | .startswith _ => "startswith"
  | .substring _ _ => "substring"
  | .add _ => "add"
  | .sub _ => "sub"
  | .mul _ => "mul"
  | .div _ => "div"
  | .mod _ => "mod"
  | .now => "now"
  | .date _ => "date"
  | .time _ => "time"

/-- Embedding of `{ ...func, value: func.value.toLowerCase() }` applied when
`ignoreCase` is set and the descriptor carries a string `value`. -/
def SupportedFunction.withLoweredValue : SupportedFunction → SupportedFunction
  | .contains (.val (.str s)) => .contains (.val (.str (jsToLowerCase s)))
  | .endswith (.val (.str s)) => .endswith (.val (.str (jsToLowerCase s)))
  | .indexof (.val (.str s)) => .indexof (.val (.str (jsToLowerCase s)))
  | .startswith (.val (.str s)) => .startswith (.val (.str (jsToLowerCase s)))
  | f => f

/-- Embedding of the arithmetic branch of `processFunction`
(`createArithmeticHandler`): infix `field <op> operand`. -/
def arithmeticRender (operator : String) (operand : FuncArg) (field : String)
    : Except String String := do
  let v ← formatValue operand
  pure (field ++ " " ++ operator ++ " " ++ v)

/-- Embedding of the visitor's private `processFunction`. -/
def processFunction (func : SupportedFunction) (field : String)
    : Except String String :=
  match func with
  | .concat values => do
      let vs ← values.mapM formatValue
      pure ("concat(" ++ joinSep ", " (field :: vs) ++ ")")
  | .contains value => do
      let v ← formatValue value
      pure ("contains(" ++ field ++ ", " ++ v ++ ")")
  | .endswith value => do
      let v ← formatValue value
      pure ("endswith(" ++ field ++ ", " ++ v ++ ")")
  | .indexof value => do
      let v ← formatValue value
      pure ("indexof(" ++ field ++ ", " ++ v ++ ")")
  | .length => pure ("length(" ++ field ++ ")")
  | .startswith value => do
      let v ← formatValue value
      pure ("startswith(" ++ field ++ ", " ++ v ++ ")")
  | .substring start len => do
      let args := start :: len.toList
      let vs ← args.mapM formatValue
      pure ("substring(" ++ field ++ ", " ++ joinSep ", " vs ++ ")")
  | .add operand => arithmeticRender "add" operand field
  | .sub operand => arithmeticRender "sub" operand field
  | .mul operand => arithmeticRender "mul" operand field
  | .div operand => arithmeticRender "div" operand field
  | .mod operand => arithmeticRender "mod" operand field
  | .now => pure "now()"
  | .date f => do
      let r ← resolveField f
      pure ("date(" ++ r ++ ")")
  | .time f => do
      let r ← resolveField f
      pure ("time(" ++ r ++ ")")

/-- Embedding of a basic (comparison/predicate) filter object: `field`,
`operator`, `value`, with the optional `ignoreCase`/`removeQuotes` flags,
`function` descriptor, and `transform` chain. -/
structure BasicFilter where
  field : String
  operator : CompOp
  value : FilterValue
  ignoreCase : Bool := false
  removeQuotes : Bool := false
  function : Option SupportedFunction := none
  transform : List String := []
deriving DecidableEq, Repr

/-- The filter expression model: the closed set of tagged variants
`QueryFilter<T> | CombinedFilter<T>` consumed by the visitor. -/
inductive QueryFilter
  | basic (b : BasicFilter)
  | lambda (field : String) (lambdaOperator : String) (expression : QueryFilter)
  | inF (field : String) (values : List FilterValue)
  | negated (filter : QueryFilter)
  | has (field : String) (value : String)
  | combined (logic : String) (filters : List QueryFilter)

/-- Embedding of `FilterRenderContext`. -/
structure FilterRenderContext where
  legacyInOperator : Bool := false
deriving DecidableEq, Repr

/-- Embedding of the visitor's private `getPrefixedField`.
The source first tests `!prefix` (absent or empty string), then the literal
placeholder `'s'`, then equality with the prefix, then falls back to
`prefix/field` (or the bare prefix when the field string is empty). -/
def getPrefixedField (field : String) (pfx : Option String) : String :=
  match pfx with
  | none => field
  | some p =>
      if p = "" then field
      else if field = "s" then p
      else if field = p then field
      else if field ≠ "" then p ++ "/" ++ field
      else p

/-- Embedding of the visitor's private `getTransformedField`: prepend
`tolower` when `ignoreCase` is set, then wrap the field in each transform. -/
def getTransformedField (b : BasicFilter) : String :=
  let transforms := (if b.ignoreCase then ["tolower"] else []) ++ b.transform
  transforms.foldl (fun acc t => t ++ "(" ++ acc ++ ")") b.field

/-- Lookup table of the visitor's `applyDateTransforms`
(`year/month/day/hour/minute/second`, all UTC). -/
def dateTransformFn (t : String) (ms : Int) : Option Int :=
  if t = "year" then some (getUTCFullYear ms)
  else if t = "month" then some (getUTCMonth ms + 1)
  else if t = "day" then some (getUTCDate ms)
  else if t = "hour" then some (getUTCHours ms)
  else if t = "minute" then some (getUTCMinutes ms)
  else if t = "second" then some (getUTCSeconds ms)
  else none

/-- Embedding of `applyDateTransforms`: fold the transform chain over the
literal's timestamp (each step re-reads its numeric result as a timestamp,
as the source's `new Date(acc)` does). -/
def applyDateTransforms (ms : Int) (transforms : List String)
    : Except String Int :=
  transforms.foldlM
    (fun acc t =>
      match dateTransformFn t acc with
      | some v => .ok v
      | none => .error ("Unsupported DateTransform: " ++ t))
    ms

/-- Embedding of `validateOperator`: throw when `isValidOperator` says no. -/
def validateOperator (type operator : String) : Except String Unit :=
  if !isValidOperator type operator then
    .error ("Invalid operator \"" ++ operator ++ "\" for type \"" ++ type ++ "\"")
  else .ok ()

/-- The visitor's `booleanPredicates` list. -/
def booleanPredicates : List String := ["contains", "startswith", "endswith"]

/-- Embedding of `ODataFilterVisitor.visitBasicFilter`. The `value` property
is always present on the typed model, and `getValueType` never returns
`unknown` on it, so those two defensive throws are unreachable here. -/
def visitBasicFilter (b : BasicFilter) : Except String String :=
  match b.value with
  | .null => do
      let leftSide ←
        match b.function with
        | some f => processFunction f b.field
        | none => pure (getTransformedField b)
      pure (leftSide ++ " " ++ b.operator.render ++ " null")
  | .date ms => do
      validateOperator (getValueType (.date ms)) b.operator.render
      let transformedField := getTransformedField b
      if b.transform ≠ [] then do
        let transformedValue ← applyDateTransforms ms b.transform
        pure (transformedField ++ " " ++ b.operator.render ++ " " ++
          toString transformedValue)
      else do
        let leftSide ←
          match b.function with
          | some f => processFunction f b.field
          | none => pure transformedField
        pure (leftSide ++ " " ++ b.operator.render ++ " " ++ toISOString ms)
  | .str s => do
      validateOperator (getValueType (.str s)) b.operator.render
      let transformedField := getTransformedField b
      let transformedValue := if b.ignoreCase then jsToLowerCase s else s
      let escapedValue := escapeQuotes transformedValue
      let value :=
        if b.removeQuotes then escapedValue
        else "\x27" ++ escapedValue ++ "\x27"
      match b.function with
      | some f =>
          let fieldForFunction :=
            if b.ignoreCase then "tolower(" ++ b.field ++ ")" else b.field
          if booleanPredicates.contains f.typeName then
            processFunction f fieldForFunction
          else do
            let leftSide ← processFunction f fieldForFunction
            pure (leftSide ++ " " ++ b.operator.render ++ " " ++ value)
      | none =>
          pure (transformedField ++ " " ++ b.operator.render ++ " " ++ value)
  | .num n => do
      validateOperator (getValueType (.num n)) b.operator.render
      let transformedField := getTransformedField b
      let leftSide ←
        match b.function with
        | some f => processFunction f b.field
        | none => pure transformedField
      pure (leftSide ++ " " ++ b.operator.render ++ " " ++ toString n)
  | .bool bb => do
      validateOperator (getValueType (.bool bb)) b.operator.render
      let transformedField := getTransformedField b
      match b.function with
      | some f =>
          if booleanPredicates.contains f.typeName then
            let fieldForFunction :=
              if b.ignoreCase then "tolower(" ++ b.field ++ ")" else b.field
            let funcWithLowercasedValue :=
              if b.ignoreCase then f.withLoweredValue else f
            processFunction funcWithLowercasedValue fieldForFunction
          else
            pure (transformedField ++ " " ++ b.operator.render ++ " " ++
              toString bb)
      | none =>
          pure (transformedField ++ " " ++ b.operator.render ++ " " ++
            toString bb)

/-- Embedding of the visitor's private `formatInValue`; total on the typed
`InFilterValue` model (the `unknown`-type throw is unreachable). -/
def formatInValue : FilterValue → String
  | .null => "null"
  | .str s => if isGuid s then s else "\x27" ++ escapeQuotes s ++ "\x27"
  | .date ms => toISOString ms
  | .num n => toString n
  | .bool b => toString b

/-- Embedding of `ODataFilterVisitor.visitInFilter`: OData 4.01 `in` syntax
by default, the 4.0 `or`-chain fallback when `legacyInOperator` is set. -/
def visitInFilter (ctx : FilterRenderContext) (field : String)
    (values : List FilterValue) : String :=
  let formattedValues := values.map formatInValue
  if ctx.legacyInOperator then
    let conditions := formattedValues.map fun v => field ++ " eq " ++ v
    "(" ++ joinSep " or " conditions ++ ")"
  else
    field ++ " in (" ++ joinSep ", " formattedValues ++ ")"

/-- Embedding of `ODataFilterVisitor.visitHasFilter`: raw passthrough. -/
def visitHasFilter (field : String) (value : String) : String :=
  field ++ " has " ++ value

/-- Parameter naming of `visitLambdaFilter`: the parent's first code point
plus one (`String.fromCharCode(parentPrefix.charCodeAt(0) + 1)`). -/
def nextParamName (p : String) : String :=
  match p.data with
  | c :: _ => String.mk [Char.ofNat (c.toNat + 1)]
  | [] => String.mk [Char.ofNat 0]

/-- The current lambda parameter: `s` at the outermost level, otherwise the
parent's parameter advanced by one code point. -/
def lambdaParamName : Option String → String
  | none => "s"
  | some p => nextParamName p

mutual

/-- Embedding of `ODataFilterVisitor.visitLambdaFilter`. The source's guard
chain over the `expression` is `isCombinedFilter`, the local
`isLambdaFilter`, then `isBasicFilter`; `has` objects satisfy
`isBasicFilter` (they have `field`/`operator`/`value`) and then fail
`validateOperator` inside `visitBasicFilter`, while `in` and negated
expressions fall through to the `Invalid expression` throw. -/
def visitLambdaFilter (ctx : FilterRenderContext) (field : String)
    (lambdaOperator : String) (expression : QueryFilter)
    (parentParam : Option String) : Except String String :=
  if lambdaOperator = "" then .error "Invalid LambdaFilter"
  else
    let currentParam := lambdaParamName parentParam
    let field' := getPrefixedField field parentParam
    match expression with
    | .combined logic fs => do
        let subQuery ← visitCombinedFilter ctx logic fs (some currentParam)
        pure (field' ++ "/" ++ lambdaOperator ++ "(" ++ currentParam ++ ": " ++
          subQuery ++ ")")
    | .lambda f2 op2 e2 => do
        let nestedQuery ← visitLambdaFilter ctx f2 op2 e2 (some currentParam)
        pure (field' ++ "/" ++ lambdaOperator ++ "(" ++ currentParam ++ ": " ++
          nestedQuery ++ ")")
    | .basic b => do
        let prefixedExpression :=
          { b with field := getPrefixedField b.field (some currentParam) }
        let subQuery ← visitBasicFilter prefixedExpression
        pure (field' ++ "/" ++ lambdaOperator ++ "(" ++ currentParam ++ ": " ++
          subQuery ++ ")")
    | .has _ hv =>
        .error ("Invalid operator \"has\" for type \"" ++
          getValueType (.str hv) ++ "\"")
    | .inF _ _ => .error "Invalid expression in LambdaFilter"
    | .negated _ => .error "Invalid expression in LambdaFilter"

/-- Embedding of `ODataFilterVisitor.visitCombinedFilter`: render every
child with the current lambda prefix, join with the node's logic token, and
parenthesize exactly when the joined string contains a space
(`combinedQueries.includes(' ')`). -/
def visitCombinedFilter (ctx : FilterRenderContext) (logic : String)
    (filters : List QueryFilter) (currentParam : Option String)
    : Except String String := do
  let qs ← visitSubFilters ctx filters currentParam
  let combinedQueries := joinSep (" " ++ logic ++ " ") qs
  pure (if strIncludes combinedQueries ' ' then "(" ++ combinedQueries ++ ")"
    else combinedQueries)

/-- The `filter.filters.map(...)` traversal inside `visitCombinedFilter`
(exceptions propagate out of the whole map). -/
def visitSubFilters (ctx : FilterRenderContext) (fs : List QueryFilter)
    (currentParam : Option String) : Except String (List String) :=
  match fs with
  | [] => pure []
  | f :: rest => do
      let s ← visitSubFilter ctx f currentParam
      let others ← visitSubFilters ctx rest currentParam
      pure (s :: others)

/-- The per-child dispatch inside `visitCombinedFilter`'s map: guard order
`isCombinedFilter`, `isLambdaFilter`, `isInFilter`, `isNegatedFilter`,
`isHasFilter`, `isBasicFilter`; `in`, `has` and basic children have their
field prefixed with the current lambda parameter, negated children do not. -/
def visitSubFilter (ctx : FilterRenderContext) (f : QueryFilter)
    (currentParam : Option String) : Except String String :=
  match f with
  | .combined l fs => visitCombinedFilter ctx l fs currentParam
  | .lambda fl op e => visitLambdaFilter ctx fl op e currentParam
  | .inF fld vs => pure (visitInFilter ctx (getPrefixedField fld currentParam) vs)
  | .negated inner => visitNegatedFilter ctx inner
  | .has fld v => pure (visitHasFilter (getPrefixedField fld currentParam) v)
  | .basic b => visitBasicFilter { b with field := getPrefixedField b.field currentParam }

/-- Embedding of `ODataFilterVisitor.visitNegatedFilter`: dispatch on the
wrapped node (guard order `isCombinedFilter`, `isNegatedFilter`,
`isInFilter`, `isHasFilter`, `isLambdaFilter`, `isBasicFilter`), then always
wrap as `not (<inner>)`. -/
def visitNegatedFilter (ctx : FilterRenderContext) (inner : QueryFilter)
    : Except String String := do
  let innerQuery ←
    match inner with
    | .combined l fs => visitCombinedFilter ctx l fs none
    | .negated i2 => visitNegatedFilter ctx i2
    | .inF fld vs => pure (visitInFilter ctx fld vs)
    | .has fld v => pure (visitHasFilter fld v)
    | .lambda fl op e => visitLambdaFilter ctx fl op e none
    | .basic b => visitBasicFilter b
  pure ("not (" ++ innerQuery ++ ")")

end

/-- Internal builder state entry (`FilterPart<T>`): an optional connecting
logic token (`and`/`or`, absent on the first part) plus the filter. -/
structure FilterPart where
  logic : Option String := none
  filter : QueryFilter

/-- The grouping loop of `FilterBuilder.buildWithPrecedence`: partition the
parts into groups of consecutive `and`-joined (and first) filters; every
`or` part closes the current group and starts a new one. -/
def groupPartsLoop : List FilterPart → List QueryFilter → List (List QueryFilter)
  | [], currentAndGroup =>
      if currentAndGroup.isEmpty then [] else [currentAndGroup]
  | p :: rest, currentAndGroup =>
      if p.logic = some "or" then
        if currentAndGroup.isEmpty then groupPartsLoop rest [p.filter]
        else currentAndGroup :: groupPartsLoop rest [p.filter]
      else groupPartsLoop rest (currentAndGroup ++ [p.filter])

/-- Embedding of `FilterBuilder.buildWithPrecedence`: each multi-member
group becomes `Combined('and', members)`, singleton groups stay unwrapped;
a single resulting group is returned as-is, several are wrapped in
`Combined('or', groups)`. -/
def buildWithPrecedence (parts : List FilterPart) : QueryFilter :=
  let orGroups := groupPartsLoop parts []
  let combinedAndGroups :=
    orGroups.flatMap fun group =>
      match group with
      | [f] => [f]
      | g => [QueryFilter.combined "and" g]
  match combinedAndGroups with
  | [f] => f
  | gs => QueryFilter.combined "or" gs

/-- Embedding of `FilterBuilder.build`: `null` for an empty builder, the
sole part's filter for a singleton, precedence resolution otherwise. -/
def fbBuild (parts : List FilterPart) : Option QueryFilter :=
  match parts with
  | [] => none
  | [p] => some p.filter
  | _ => some (buildWithPrecedence parts)

/-- Embedding of `FilterBuilder.resolveInput` for a `FilterBuilderLike`
input: the inner builder's `build()` result. (Predicate-function inputs run
the field-proxy dispatcher and are outside the claims' scope.) -/
def resolveBuilderInput (inner : List FilterPart) : Option QueryFilter :=
  fbBuild inner

/-- Embedding of `FilterBuilder.where` for a builder input: an empty inner
builder leaves the state unchanged, otherwise its tree is appended as a
first-style part. Never throws for builder inputs. -/
def fbWhere (parts : List FilterPart) (inner : List FilterPart)
    : List FilterPart :=
  match resolveBuilderInput inner with
  | none => parts
  | some f => parts ++ [{ logic := none, filter := f }]

/-- Embedding of `FilterBuilder.and` for a builder input: throws on an empty
receiver before resolving the input; an empty inner builder then leaves the
state unchanged. -/
def fbAnd (parts : List FilterPart) (inner : List FilterPart)
    : Except String (List FilterPart) :=
  if parts.isEmpty then
    .error "FilterBuilder: Cannot use .and() on empty builder. Use .where() first."
  else
    match resolveBuilderInput inner with
    | none => .ok parts
    | some f => .ok (parts ++ [{ logic := some "and", filter := f }])

/-- Embedding of `FilterBuilder.or` for a builder input (mirror of `and`). -/
def fbOr (parts : List FilterPart) (inner : List FilterPart)
    : Except String (List FilterPart) :=
  if parts.isEmpty then
    .error "FilterBuilder: Cannot use .or() on empty builder. Use .where() first."
  else
    match resolveBuilderInput inner with
    | none => .ok parts
    | some f => .ok (parts ++ [{ logic := some "or", filter := f }])

/-- Embedding of `FilterBuilder.not`: throws on an empty builder, otherwise
replaces the whole accumulated state with one Negation part wrapping
`build()`. -/
def fbNot (parts : List FilterPart) : Except String (List FilterPart) :=
  if parts.isEmpty then
    .error "FilterBuilder: Cannot use .not() on empty builder. Use .where() first."
  else
    match fbBuild parts with
    | none => .error "FilterBuilder: Cannot negate empty filter expression."
    | some f => .ok [{ logic := none, filter := QueryFilter.negated f }]

/-- Embedding of `FilterBuilder.group`: throws when the argument builder
builds to `null`; otherwise the receiver's own parts are discarded and a
fresh single-part state holding the argument's tree is returned. -/
def fbGroup (_parts : List FilterPart) (builder : List FilterPart)
    : Except String (List FilterPart) :=
  match fbBuild builder with
  | none =>
      .error "FilterBuilder: Cannot group empty FilterBuilder. Add at least one condition."
  | some f => .ok [{ logic := none, filter := f }]

/-- Left-to-right scan counting non-overlapping doubled-quote pairs. -/
def countQuotePairs : List Char → Nat
  | [] => 0
  | [_] => 0
  | c :: c2 :: rest =>
      if c = quoteChar then
        if c2 = quoteChar then countQuotePairs rest + 1
        else countQuotePairs (c2 :: rest)
      else countQuotePairs (c2 :: rest)

/-- Left-to-right scan checking that every quote is immediately followed by
its pair: no unpaired quote appears. -/
def quotesPaired : List Char → Bool
  | [] => true
  | [c] => if c = quoteChar then false else true
  | c :: c2 :: rest =>
      if c = quoteChar then
        if c2 = quoteChar then quotesPaired rest else false
      else quotesPaired (c2 :: rest)

/-- Literal formatter written from the spec's words for the Membership
rules: strings single-quoted with internal quotes doubled, numbers and
booleans raw, dates as ISO-8601 UTC timestamps, strings matching the
canonical GUID pattern bare (unquoted), and null as `null`. -/
def specLiteralFormat : FilterValue → String
  | .null => "null"
  | .str s => if isGuid s then s else "\x27" ++ escapeQuotes s ++ "\x27"
  | .num n => toString n
  | .bool b => toString b
  | .date ms => toISOString ms

lemma strIncludes_append (a b : String) (c : Char) :
    strIncludes (a ++ b) c = (strIncludes a c || strIncludes b c) := by
  unfold strIncludes
  rw [String.data_append]
  induction a.data with
  | nil => simp
  | cons x xs ih => simp [List.contains_cons, ih, Bool.or_assoc]

lemma strIncludes_sep (x sep y : String) (c : Char)
    (h : strIncludes sep c = true) : strIncludes (x ++ sep ++ y) c = true := by
  simp [strIncludes_append, h]

lemma visitSubFilters_length (ctx : FilterRenderContext)
    (fs : List QueryFilter) (p : Option String) (qs : List String)
    (h : visitSubFilters ctx fs p = .ok qs) : qs.length = fs.length := by
  induction fs generalizing qs with
  | nil =>
      simp only [visitSubFilters, pure, Except.pure] at h
      cases h
      rfl
  | cons f rest ih =>
      simp only [visitSubFilters] at h
      cases hf : visitSubFilter ctx f p with
      | error e => rw [hf] at h; exact Except.noConfusion h
      | ok s =>
          rw [hf] at h
          cases hr : visitSubFilters ctx rest p with
          | error e => rw [hr] at h; exact Except.noConfusion h
          | ok others =>
              rw [hr] at h
              injection h with h
              subst h
              simp [ih others hr]

lemma visitCombined_join (ctx : FilterRenderContext) (logic : String)
    (fs : List QueryFilter) (p : Option String) (qs : List String)
    (h : visitSubFilters ctx fs p = .ok qs) :
    visitCombinedFilter ctx logic fs p =
      .ok (if strIncludes (joinSep (" " ++ logic ++ " ") qs) ' '
        then "(" ++ joinSep (" " ++ logic ++ " ") qs ++ ")"
        else joinSep (" " ++ logic ++ " ") qs) := by
  simp only [visitCombinedFilter]
  rw [h]
  rfl

/-- Claim C3 counterexample: the static table's `string` row also lists
`substringof`, a pair the claim says must yield `false`. -/
theorem C3_counterexample :
    isValidOperator "string" "substringof" = true ∧
    "substringof" ∉
      (["eq", "ne", "contains", "startswith", "endswith", "indexof",
        "concat"] : List String) := by
  constructor
  · rfl
  · decide

/-- Claim C3 (amended): `isValidOperator` is a total boolean function returning
`true` exactly for the table pairs — kind `string` with eq, ne, contains,
startswith, endswith, substringof, indexof, concat; kinds `number` and
`Date` with eq, ne, lt, le, gt, ge; kinds `boolean`, `Guid` and `null` with
eq, ne; every other kind/operator pair (unknown kinds included) yields
`false`. -/
theorem C3_operatorTable (type operator : String) :
    isValidOperator type operator = true ↔
      ((type = "string" ∧ operator ∈
          (["eq", "ne", "contains", "startswith", "endswith", "substringof",
            "indexof", "concat"] : List String)) ∨
       ((type = "number" ∨ type = "Date") ∧ operator ∈
          (["eq", "ne", "lt", "le", "gt", "ge"] : List String)) ∨
       ((type = "boolean" ∨ type = "Guid" ∨ type = "null") ∧ operator ∈
          (["eq", "ne"] : List String))) := by
  unfold isValidOperator operatorTypeMap
  split_ifs with h1 h2 h3 h4 h5 h6 <;> simp_all

/-- Claim C2 counterexample: a degenerate single-child Combined node whose sole
child was the only string joined still renders parenthesized, because the
visitor parenthesizes on `includes(' ')`, not on the child count. -/
theorem C2_counterexample :
    visitCombinedFilter ⟨false⟩ "and"
        [.basic { field := "name", operator := .eq, value := .str "John" }]
        none =
      .ok "(name eq \x27John\x27)" ∧
    visitBasicFilter { field := "name", operator := .eq, value := .str "John" } =
      .ok "name eq \x27John\x27" := by
  constructor
  · simp only [visitCombinedFilter, visitSubFilters, visitSubFilter]
    rfl
  · rfl

/-- Claim C2 (amended): the visitor joins the recursively rendered children with
the node's logic token and wraps the joined string in parentheses exactly
when the joined string contains a space; since the separator itself
contains spaces, any Combined node with two or more children is always
parenthesized, while a single-child Combined is unparenthesized only when
its sole child's rendering is space-free. -/
theorem C2_combinedWrap (ctx : FilterRenderContext) (logic : String)
    (fs : List QueryFilter) (p : Option String) (qs : List String)
    (h : visitSubFilters ctx fs p = .ok qs) :
    (visitCombinedFilter ctx logic fs p =
      .ok (if strIncludes (joinSep (" " ++ logic ++ " ") qs) ' '
        then "(" ++ joinSep (" " ++ logic ++ " ") qs ++ ")"
        else joinSep (" " ++ logic ++ " ") qs)) ∧
    (2 ≤ fs.length →
      visitCombinedFilter ctx logic fs p =
        .ok ("(" ++ joinSep (" " ++ logic ++ " ") qs ++ ")")) := by
  have hmain := visitCombined_join ctx logic fs p qs h
  refine ⟨hmain, fun hlen => ?_⟩
  have hq : 2 ≤ qs.length := by
    rw [visitSubFilters_length ctx fs p qs h]
    exact hlen
  obtain ⟨x, y, rest, hqs⟩ : ∃ x y rest, qs = x :: y :: rest := by
    match qs, hq with
    | x :: y :: rest, _ => exact ⟨x, y, rest, rfl⟩
  subst hqs
  have hsp : strIncludes (joinSep (" " ++ logic ++ " ") (x :: y :: rest)) ' ' = true := by
    show strIncludes (x ++ (" " ++ logic ++ " ") ++
      joinSep (" " ++ logic ++ " ") (y :: rest)) ' ' = true
    apply strIncludes_sep
    simp [strIncludes_append, show strIncludes " " ' ' = true from rfl]
  rw [hmain, hsp]
  simp

theorem C2_combinedWrap_witness :
    visitSubFilters ⟨false⟩
        [.basic { field := "name", operator := .eq, value := .str "John" },
         .basic { field := "age", operator := .gt, value := .num 18 }] none =
      .ok ["name eq \x27John\x27", "age gt 18"] ∧
    visitCombinedFilter ⟨false⟩ "and"
        [.basic { field := "name", operator := .eq, value := .str "John" },
         .basic { field := "age", operator := .gt, value := .num 18 }] none =
      .ok "(name eq \x27John\x27 and age gt 18)" := by
  have h : visitSubFilters ⟨false⟩
      [.basic { field := "name", operator := .eq, value := .str "John" },
       .basic { field := "age", operator := .gt, value := .num 18 }] none =
      .ok ["name eq \x27John\x27", "age gt 18"] := by
    simp only [visitSubFilters, visitSubFilter]
    rfl
  exact ⟨h, (C2_combinedWrap ⟨false⟩ "and" _ none _ h).2 (by simp)⟩

lemma countQuotePairs_cons_ne (c : Char) (l : List Char)
    (hc : c ≠ quoteChar) : countQuotePairs (c :: l) = countQuotePairs l := by
  cases l with
  | nil => rfl
  | cons c2 rest => simp [countQuotePairs, hc]

lemma quotesPaired_cons_ne (c : Char) (l : List Char)
    (hc : c ≠ quoteChar) : quotesPaired (c :: l) = quotesPaired l := by
  cases l with
  | nil => simp [quotesPaired, hc]
  | cons c2 rest => simp [quotesPaired, hc]

lemma countQuotePairs_escList (l : List Char) :
    countQuotePairs (escList l) = l.count quoteChar := by
  induction l with
  | nil => rfl
  | cons c t ih =>
      by_cases hc : c = quoteChar
      · subst hc
        have he : escList (quoteChar :: t) = quoteChar :: quoteChar :: escList t := by
          simp [escList]
        rw [he]
        simp [countQuotePairs, ih, List.count_cons]
      · have he : escList (c :: t) = c :: escList t := by
          simp [escList, hc]
        rw [he, countQuotePairs_cons_ne c _ hc]
        simp [ih, List.count_cons, hc]

lemma quotesPaired_escList (l : List Char) :
    quotesPaired (escList l) = true := by
  induction l with
  | nil => rfl
  | cons c t ih =>
      by_cases hc : c = quoteChar
      · subst hc
        have he : escList (quoteChar :: t) = quoteChar :: quoteChar :: escList t := by
          simp [escList]
        rw [he]
        simp [quotesPaired, ih]
      · have he : escList (c :: t) = c :: escList t := by
          simp [escList, hc]
        rw [he, quotesPaired_cons_ne c _ hc]
        exact ih

/-- Claim C8: escaping is total — rendering an `eq` comparison with any string
value `s` yields the quoted literal `'escapeQuotes s'`, in which the number
of doubled-quote pairs equals the number of quote characters in `s` and no
unpaired quote appears; in particular `O'Brien` renders as `'O''Brien'`. -/
theorem C8_escaping (field s : String) :
    visitBasicFilter { field := field, operator := .eq, value := .str s } =
      .ok (field ++ " eq " ++ ("\x27" ++ escapeQuotes s ++ "\x27")) ∧
    countQuotePairs (escapeQuotes s).data = s.data.count quoteChar ∧
    quotesPaired (escapeQuotes s).data = true ∧
    visitBasicFilter { field := "name", operator := .eq, value := .str "O\x27Brien" } =
      .ok "name eq \x27O\x27\x27Brien\x27" := by
  refine ⟨?_, countQuotePairs_escList s.data, quotesPaired_escList s.data, by rfl⟩
  have hval : validateOperator (getValueType (.str s)) CompOp.eq.render = .ok () := by
    by_cases hg : isGuid s <;>
      simp [validateOperator, getValueType, hg, isValidOperator, operatorTypeMap,
        CompOp.render]
  simp only [visitBasicFilter]
  rw [hval]
  simp [getTransformedField, CompOp.render, String.append_assoc]

/-- Claim C6: a Membership node with field `f` and literals `vs` renders in
default mode as `f in (v1, v2, ...)` and in legacy mode as
`(f eq v1 or f eq v2 or ...)`, and both modes format every literal by the
same kind-directed rules (`formatInValue` agrees with the spec's
`specLiteralFormat`). -/
theorem C6_membership (field : String) (values : List FilterValue) :
    visitInFilter ⟨false⟩ field values =
      field ++ " in (" ++ joinSep ", " (values.map specLiteralFormat) ++ ")" ∧
    visitInFilter ⟨true⟩ field values =
      "(" ++ joinSep " or "
        (values.map fun v => field ++ " eq " ++ specLiteralFormat v) ++ ")" ∧
    (∀ v, formatInValue v = specLiteralFormat v) := by
  have hfmt : ∀ v, formatInValue v = specLiteralFormat v := by
    intro v; cases v <;> rfl
  have hmap : values.map formatInValue = values.map specLiteralFormat :=
    List.map_congr_left fun v _ => hfmt v
  refine ⟨?_, ?_, hfmt⟩
  · simp [visitInFilter, hmap]
  · simp [visitInFilter, hmap, List.map_map]
    rfl

/-- Claim C4: a Comparison whose value is `null` renders as
`<left-hand side> <operator> null` for every operator — the left-hand side
being the processed function descriptor when one is present and the
transformed field otherwise — without consulting the value classifier or
the operator table; in particular the descriptor-free case never fails. -/
theorem C4_nullComparison (b : BasicFilter) (h : b.value = .null) :
    visitBasicFilter b =
      (match b.function with
       | some f => (processFunction f b.field).map
           (fun leftSide => leftSide ++ " " ++ b.operator.render ++ " null")
       | none =>
           .ok (getTransformedField b ++ " " ++ b.operator.render ++ " null")) := by
  obtain ⟨field, operator, value, ic, rq, fn, tr⟩ := b
  simp only at h
  subst h
  simp only [visitBasicFilter]
  cases fn with
  | none => rfl
  | some f =>
      simp only
      cases processFunction f field <;> rfl

theorem C4_witness :
    (({ field := "age", operator := .gt, value := .null } : BasicFilter).value
        = FilterValue.null) ∧
    visitBasicFilter { field := "age", operator := .gt, value := .null } =
      .ok "age gt null" := by
  exact ⟨rfl, (C4_nullComparison _ rfl).trans rfl⟩

/-- Claim C9: with another builder as input, `where`/`and`/`or` splice in the
inner builder's built tree; an empty inner builder leaves the outer state
unchanged without an error, `and`/`or` on an empty outer builder always
fail with the empty-builder error whatever the input, and `where` never
fails for builder inputs. -/
theorem C9_builderInputs :
    (∀ (parts inner : List FilterPart) (f : QueryFilter),
        resolveBuilderInput inner = some f →
        fbWhere parts inner = parts ++ [{ logic := none, filter := f }]) ∧
    (∀ (parts inner : List FilterPart),
        resolveBuilderInput inner = none → fbWhere parts inner = parts) ∧
    (∀ inner : List FilterPart,
        fbAnd [] inner =
          .error "FilterBuilder: Cannot use .and() on empty builder. Use .where() first.") ∧
    (∀ inner : List FilterPart,
        fbOr [] inner =
          .error "FilterBuilder: Cannot use .or() on empty builder. Use .where() first.") ∧
    (∀ (p : FilterPart) (rest inner : List FilterPart),
        resolveBuilderInput inner = none →
        fbAnd (p :: rest) inner = .ok (p :: rest) ∧
        fbOr (p :: rest) inner = .ok (p :: rest)) ∧
    (∀ (p : FilterPart) (rest inner : List FilterPart) (f : QueryFilter),
        resolveBuilderInput inner = some f →
        fbAnd (p :: rest) inner =
          .ok ((p :: rest) ++ [{ logic := some "and", filter := f }]) ∧
        fbOr (p :: rest) inner =
          .ok ((p :: rest) ++ [{ logic := some "or", filter := f }])) := by
  refine ⟨?_, ?_, ?_, ?_, ?_, ?_⟩
  · intro parts inner f h; simp [fbWhere, h]
  · intro parts inner h; simp [fbWhere, h]
  · intro inner; rfl
  · intro inner; rfl
  · intro p rest inner h; constructor <;> simp [fbAnd, fbOr, h]
  · intro p rest inner f h; constructor <;> simp [fbAnd, fbOr, h]

theorem C9_witness :
    resolveBuilderInput [{ logic := none, filter := QueryFilter.has "f" "v" }] =
      some (QueryFilter.has "f" "v") ∧
    fbWhere [] [{ logic := none, filter := QueryFilter.has "f" "v" }] =
      [{ logic := none, filter := QueryFilter.has "f" "v" }] ∧
    fbAnd [] [{ logic := none, filter := QueryFilter.has "f" "v" }] =
      .error "FilterBuilder: Cannot use .and() on empty builder. Use .where() first." ∧
    resolveBuilderInput ([] : List FilterPart) = none ∧
    fbAnd [{ logic := none, filter := QueryFilter.has "f" "v" }] [] =
      .ok [{ logic := none, filter := QueryFilter.has "f" "v" }] := by
  refine ⟨rfl, ?_, C9_builderInputs.2.2.1 _, rfl, ?_⟩
  · exact C9_builderInputs.1 [] _ _ rfl
  · exact (C9_builderInputs.2.2.2.2.1 _ [] [] rfl).1

/-- Claim C10: `group(inner)` fails with the empty-group error when the inner
builder builds to nothing, and otherwise returns a builder whose parts
list is exactly the one entry holding the inner builder's tree — whatever
was previously accumulated on the receiver is discarded. -/
theorem C10_group :
    (∀ (parts inner : List FilterPart), fbBuild inner = none →
        fbGroup parts inner =
          .error "FilterBuilder: Cannot group empty FilterBuilder. Add at least one condition.") ∧
    (∀ (parts inner : List FilterPart) (f : QueryFilter),
        fbBuild inner = some f →
        fbGroup parts inner = .ok [{ logic := none, filter := f }]) := by
  constructor
  · intro parts inner h; simp [fbGroup, h]
  · intro parts inner f h; simp [fbGroup, h]

theorem C10_witness :
    fbGroup [{ logic := none, filter := QueryFilter.has "a" "b" }]
        [{ logic := none, filter := QueryFilter.has "c" "d" }] =
      .ok [{ logic := none, filter := QueryFilter.has "c" "d" }] ∧
    fbGroup [{ logic := none, filter := QueryFilter.has "a" "b" }] [] =
      .error "FilterBuilder: Cannot group empty FilterBuilder. Add at least one condition." := by
  exact ⟨C10_group.2 _ _ _ rfl, C10_group.1 _ _ rfl⟩

/-- Claim C5: on a non-empty builder, `not()` returns a builder whose single
accumulated part is a Negation node wrapping exactly the builder's whole
`build()` result; rendering a Negation yields `not (` + rendering of the
wrapped tree + `)` for every inner variant (negated ones included); on an
empty builder `not()` fails, and a non-empty builder always builds to
something, so there is always a tree to wrap. -/
theorem C5_not :
    (∀ (parts : List FilterPart) (f : QueryFilter), parts ≠ [] →
        fbBuild parts = some f →
        fbNot parts = .ok [{ logic := none, filter := QueryFilter.negated f }]) ∧
    (∀ (ctx : FilterRenderContext) (f : QueryFilter) (s : String),
        visitSubFilter ctx f none = .ok s →
        visitNegatedFilter ctx f = .ok ("not (" ++ s ++ ")")) ∧
    (fbNot [] =
      .error "FilterBuilder: Cannot use .not() on empty builder. Use .where() first.") ∧
    (∀ parts : List FilterPart, parts ≠ [] → ∃ f, fbBuild parts = some f) := by
  refine ⟨?_, ?_, rfl, ?_⟩
  · intro parts f hne hb
    cases parts with
    | nil => exact absurd rfl hne
    | cons p rest => simp [fbNot, hb]
  · intro ctx f s h
    cases f with
    | basic b =>
        simp only [visitSubFilter] at h
        rw [show ({ b with field := getPrefixedField b.field none } : BasicFilter)
            = b from rfl] at h
        simp only [visitNegatedFilter]
        rw [h]
        rfl
    | lambda fl op e =>
        simp only [visitSubFilter] at h
        simp only [visitNegatedFilter]
        rw [h]
        rfl
    | inF fld vs =>
        simp only [visitSubFilter, getPrefixedField] at h
        injection h with h
        simp only [visitNegatedFilter]
        rw [← h]
        rfl
    | negated i2 =>
        simp only [visitSubFilter] at h
        simp only [visitNegatedFilter]
        rw [h]
        rfl
    | has fld v =>
        simp only [visitSubFilter, getPrefixedField] at h
        injection h with h
        simp only [visitNegatedFilter]
        rw [← h]
        rfl
    | combined l fs =>
        simp only [visitSubFilter] at h
        simp only [visitNegatedFilter]
        rw [h]
        rfl
  · intro parts hne
    cases parts with
    | nil => exact absurd rfl hne
    | cons p rest =>
        cases rest with
        | nil => exact ⟨p.filter, rfl⟩
        | cons q r => exact ⟨buildWithPrecedence (p :: q :: r), rfl⟩

theorem C5_witness :
    ([({ logic := none, filter := QueryFilter.has "a" "b" } : FilterPart)] ≠ []) ∧
    fbBuild [{ logic := none, filter := QueryFilter.has "a" "b" }] =
      some (QueryFilter.has "a" "b") ∧
    fbNot [{ logic := none, filter := QueryFilter.has "a" "b" }] =
      .ok [{ logic := none,
             filter := QueryFilter.negated (QueryFilter.has "a" "b") }] ∧
    visitSubFilter ⟨false⟩ (QueryFilter.negated (QueryFilter.has "a" "b")) none =
      .ok "not (a has b)" ∧
    visitNegatedFilter ⟨false⟩ (QueryFilter.negated (QueryFilter.has "a" "b")) =
      .ok "not (not (a has b))" := by
  have h4 : visitSubFilter ⟨false⟩
      (QueryFilter.negated (QueryFilter.has "a" "b")) none =
      .ok "not (a has b)" := by
    simp only [visitSubFilter, visitNegatedFilter]
    rfl
  exact ⟨by simp, rfl, C5_not.1 _ _ (by simp) rfl, h4, C5_not.2.1 _ _ _ h4⟩

/-- Claim C7: the outermost lambda binds parameter `s` and each nesting level
binds the character one code point above its parent's first character
(`s`, `t`, `u` outer-to-inner for three nested quantifiers); when the inner
node is rendered, a field equal to the placeholder `s` for the array
element itself becomes the current parameter, any other non-empty field
distinct from the parameter is prefixed as `<param>/<field>`, and a field
already equal to the parameter stays unprefixed. -/
theorem C7_lambdaParams :
    lambdaParamName none = "s" ∧
    (∀ (c : Char) (cs : List Char),
        lambdaParamName (some (String.mk (c :: cs))) =
          String.mk [Char.ofNat (c.toNat + 1)]) ∧
    (nextParamName "s" = "t" ∧ nextParamName "t" = "u") ∧
    (∀ ctx : FilterRenderContext,
        visitLambdaFilter ctx "a" "any"
            (.lambda "b" "any" (.lambda "c" "any"
              (.basic { field := "name", operator := .eq, value := .str "x" })))
            none =
          .ok "a/any(s: s/b/any(t: t/c/any(u: u/name eq \x27x\x27)))") ∧
    (∀ param : String, param ≠ "" → getPrefixedField "s" (some param) = param) ∧
    (∀ param f : String, param ≠ "" → f ≠ "s" → f ≠ param → f ≠ "" →
        getPrefixedField f (some param) = param ++ "/" ++ f) ∧
    (∀ param : String, param ≠ "" → getPrefixedField param (some param) = param) := by
  refine ⟨rfl, fun c cs => rfl, ⟨rfl, rfl⟩, ?_, ?_, ?_, ?_⟩
  · intro ctx
    simp only [visitLambdaFilter, lambdaParamName, nextParamName,
      getPrefixedField]
    rfl
  · intro param h
    simp [getPrefixedField, h]
  · intro param f h hs hp hemp
    simp [getPrefixedField, h, hs, hp, hemp]
  · intro param h
    by_cases hs : param = "s" <;> simp [getPrefixedField, h, hs]

theorem C7_witness :
    ("t" ≠ "") ∧ ("name" ≠ "s") ∧ ("name" ≠ "t") ∧ ("name" ≠ "") ∧
    getPrefixedField "s" (some "t") = "t" ∧
    getPrefixedField "name" (some "t") = "t/name" ∧
    getPrefixedField "t" (some "t") = "t" := by
  refine ⟨by decide, by decide, by decide, by decide,
    C7_lambdaParams.2.2.2.2.1 "t" (by decide),
    C7_lambdaParams.2.2.2.2.2.1 "t" "name" (by decide) (by decide) (by decide)
      (by decide),
    C7_lambdaParams.2.2.2.2.2.2 "t" (by decide)⟩

/-- Claim C1: AND binds tighter than OR — the parts accumulated by
`where(a).and(b).or(c)` build to `Combined('or', [Combined('and',[a,b]), c])`,
which renders as the independently assembled `((a and b) or c)`; and
`where(a).and(b).and(c)` builds one flat `Combined('and', [a, b, c])`. -/
theorem C1_precedence (ctx : FilterRenderContext) (a b c : QueryFilter)
    (ra rb rc : String)
    (ha : visitSubFilter ctx a none = .ok ra)
    (hb : visitSubFilter ctx b none = .ok rb)
    (hc : visitSubFilter ctx c none = .ok rc) :
    fbWhere [] [{ logic := none, filter := a }] =
      [{ logic := none, filter := a }] ∧
    fbAnd [{ logic := none, filter := a }] [{ logic := none, filter := b }] =
      .ok [{ logic := none, filter := a }, { logic := some "and", filter := b }] ∧
    fbOr [{ logic := none, filter := a }, { logic := some "and", filter := b }]
        [{ logic := none, filter := c }] =
      .ok [{ logic := none, filter := a }, { logic := some "and", filter := b },
           { logic := some "or", filter := c }] ∧
    fbBuild [{ logic := none, filter := a }, { logic := some "and", filter := b },
             { logic := some "or", filter := c }] =
      some (.combined "or" [.combined "and" [a, b], c]) ∧
    visitSubFilter ctx (.combined "or" [.combined "and" [a, b], c]) none =
      .ok ("((" ++ ra ++ " and " ++ rb ++ ") or " ++ rc ++ ")") ∧
    fbAnd [{ logic := none, filter := a }, { logic := some "and", filter := b }]
        [{ logic := none, filter := c }] =
      .ok [{ logic := none, filter := a }, { logic := some "and", filter := b },
           { logic := some "and", filter := c }] ∧
    fbBuild [{ logic := none, filter := a }, { logic := some "and", filter := b },
             { logic := some "and", filter := c }] =
      some (.combined "and" [a, b, c]) := by
  refine ⟨rfl, rfl, rfl, rfl, ?_, rfl, rfl⟩
  have hsubAnd : visitSubFilters ctx [a, b] none = .ok [ra, rb] := by
    simp only [visitSubFilters]
    rw [ha, hb]
    rfl
  have handSp : strIncludes (joinSep (" " ++ "and" ++ " ") [ra, rb]) ' ' = true := by
    show strIncludes (ra ++ (" " ++ "and" ++ " ") ++ joinSep (" " ++ "and" ++ " ") [rb]) ' ' = true
    exact strIncludes_sep _ _ _ _ rfl
  have hand : visitCombinedFilter ctx "and" [a, b] none =
      .ok ("(" ++ (ra ++ " and " ++ rb) ++ ")") := by
    rw [visitCombined_join ctx "and" [a, b] none [ra, rb] hsubAnd, handSp]
    rfl
  have hsubOr : visitSubFilters ctx [.combined "and" [a, b], c] none =
      .ok ["(" ++ (ra ++ " and " ++ rb) ++ ")", rc] := by
    simp only [visitSubFilters, visitSubFilter]
    rw [hand, hc]
    rfl
  have horSp : strIncludes
      (joinSep (" " ++ "or" ++ " ") ["(" ++ (ra ++ " and " ++ rb) ++ ")", rc]) ' '
      = true := by
    show strIncludes (("(" ++ (ra ++ " and " ++ rb) ++ ")") ++ (" " ++ "or" ++ " ")
      ++ joinSep (" " ++ "or" ++ " ") [rc]) ' ' = true
    exact strIncludes_sep _ _ _ _ rfl
  simp only [visitSubFilter]
  rw [visitCombined_join ctx "or" [.combined "and" [a, b], c] none _ hsubOr, horSp]
  simp only [joinSep, String.append_assoc]
  rfl

theorem C1_witness :
    visitSubFilter ⟨false⟩
        (.basic { field := "name", operator := .eq, value := .str "John" }) none =
      .ok "name eq \x27John\x27" ∧
    visitSubFilter ⟨false⟩
        (.basic { field := "age", operator := .gt, value := .num 18 }) none =
      .ok "age gt 18" ∧
    visitSubFilter ⟨false⟩
        (.basic { field := "isAdmin", operator := .eq, value := .bool true }) none =
      .ok "isAdmin eq true" ∧
    fbBuild [{ logic := none,
               filter := .basic { field := "name", operator := .eq, value := .str "John" } },
             { logic := some "and",
               filter := .basic { field := "age", operator := .gt, value := .num 18 } },
             { logic := some "or",
               filter := .basic { field := "isAdmin", operator := .eq, value := .bool true } }] =
      some (.combined "or"
        [.combined "and"
          [.basic { field := "name", operator := .eq, value := .str "John" },
           .basic { field := "age", operator := .gt, value := .num 18 }],
         .basic { field := "isAdmin", operator := .eq, value := .bool true }]) ∧
    visitSubFilter ⟨false⟩
        (.combined "or"
          [.combined "and"
            [.basic { field := "name", operator := .eq, value := .str "John" },
             .basic { field := "age", operator := .gt, value := .num 18 }],
           .basic { field := "isAdmin", operator := .eq, value := .bool true }]) none =
      .ok "((name eq \x27John\x27 and age gt 18) or isAdmin eq true)" ∧
    fbBuild [{ logic := none,
               filter := .basic { field := "name", operator := .eq, value := .str "John" } },
             { logic := some "and",
               filter := .basic { field := "age", operator := .gt, value := .num 18 } },
             { logic := some "and",
               filter := .basic { field := "isAdmin", operator := .eq, value := .bool true } }] =
      some (.combined "and"
        [.basic { field := "name", operator := .eq, value := .str "John" },
         .basic { field := "age", operator := .gt, value := .num 18 },
         .basic { field := "isAdmin", operator := .eq, value := .bool true }]) := by
  have ha : visitSubFilter ⟨false⟩
      (.basic { field := "name", operator := .eq, value := .str "John" }) none =
      .ok "name eq \x27John\x27" := by
    simp only [visitSubFilter]
    rfl
  have hb : visitSubFilter ⟨false⟩
      (.basic { field := "age", operator := .gt, value := .num 18 }) none =
      .ok "age gt 18" := by
    simp only [visitSubFilter]
    rfl
  have hc : visitSubFilter ⟨false⟩
      (.basic { field := "isAdmin", operator := .eq, value := .bool true }) none =
      .ok "isAdmin eq true" := by
    simp only [visitSubFilter]
    rfl
  have hmain := C1_precedence ⟨false⟩ _ _ _ _ _ _ ha hb hc
  exact ⟨ha, hb, hc, hmain.2.2.2.1, hmain.2.2.2.2.1, hmain.2.2.2.2.2.2⟩
